import Mathlib

/-!
Shallow embedding of the Contest-Pulse Discord bot's contest aggregation
(`src/services/contestService.js`) and reminder scheduling
(`src/services/reminderService.js`), together with theorems settling the
spec claims about them.

Conventions of the embedding:
* JS epoch-millisecond numbers become `Int`; an invalid date (`NaN` from
  `new Date(...).getTime()`) becomes `Option Int` = `none` at the points
  where the source checks `isNaN`.
* Network requests are replaced by oracle parameters describing what each
  successive HTTP call would yield, with one constructor per failure class
  the source distinguishes (thrown timeout error, other thrown error,
  malformed-but-received payload, well-formed payload).
* `try { ... } catch { return [] }` becomes a total function whose failure
  constructors map to `[]`; totality models "no exception propagates".
* Presentation-only fields of the JS contest objects (`date`, the
  locale-formatted `startTime`/`endTime` display strings) are omitted;
  every field the aggregation, filtering, sorting and scheduling logic
  reads (`platform`, `name`, `startTimeMs`, `endTimeMs`, `url`) is kept.
-/

/-- Canonical contest record produced by every adapter
(`contestService.js`, object literals at lines 53, 328, 415, 516). -/
structure Contest where
  platform : String
  name : String
  startTimeMs : Int
  endTimeMs : Int
  url : String
deriving Repr, DecidableEq

/-- The dedup key the spec calls `identity`: `(platform, name, startTime)`.
The reminder scheduler materialises it as the string
`platform + "-" + name + "-" + startTimeMs` (reminderService.js line 352). -/
def identityOf (c : Contest) : String × String × Int :=
  (c.platform, c.name, c.startTimeMs)

/-- JS `String.prototype.includes` on char lists: some suffix of `s`
has `p` as a prefix. -/
def charsContain : List Char → List Char → Bool
  | s, p =>
    if p.isPrefixOf s then true
    else match s with
      | [] => false
      | _ :: t => charsContain t p

/-- JS `s.includes(p)` for strings. -/
def strContains (s p : String) : Bool :=
  charsContain s.toList p.toList

/-- JS `s.startsWith(p)` for strings. -/
def strStarts (s p : String) : Bool :=
  p.toList.isPrefixOf s.toList

/-- JS `s.toLowerCase()` (per-char lowercasing). -/
def strToLower (s : String) : String :=
  String.mk (s.toList.map Char.toLower)

/- ### Codeforces adapter (`fetchCodeforcesContests`, contestService.js 7-68) -/

/-- One element of `response.data.result` from the Codeforces
`contest.list` endpoint, with the fields the adapter reads. -/
structure CFRaw where
  id : Nat
  name : String
  phase : String
  startTimeSeconds : Int
  durationSeconds : Int
deriving Repr, DecidableEq

/-- Outcome of the single `axios.get` in `fetchCodeforcesContests`:
a thrown error (network failure), a response with `status != 'OK'`,
or an OK response carrying a raw contest list. -/
inductive CFApi
  | fail
  | nonOK (status : String)
  | ok (result : List CFRaw)
deriving Repr, DecidableEq

/-- Formatting of one upcoming Codeforces contest
(contestService.js 44-63): times in seconds are scaled to ms and
`endTimeMs = startTimeMs + durationMs`. -/
def formatCFContest (r : CFRaw) : Contest :=
  { platform := "Codeforces"
    name := r.name
    startTimeMs := r.startTimeSeconds * 1000
    endTimeMs := r.startTimeSeconds * 1000 + r.durationSeconds * 1000
    url := "https://codeforces.com/contests/" ++ toString r.id }

/-- `fetchCodeforcesContests` (contestService.js 7-68): on a thrown error
or non-OK status it returns `[]` (lines 35-38, 64-67); otherwise it keeps
contests with `phase === 'BEFORE'` and formats them. -/
def fetchCodeforcesContests : CFApi → List Contest
  | .fail => []
  | .nonOK _ => []
  | .ok result =>
      (result.filter (fun c => c.phase == "BEFORE")).map formatCFContest

/- ### Clist.by formatting (`formatClistContests`, contestService.js 268-343) -/

/-- One element of `response.data.objects` from Clist.by, after the JS
field-name normalisation (`start || startTime || start_time` etc., lines
282-286) and date parsing: `none` stands for a field whose
`new Date(...).getTime()` is `NaN`. `finish` embeds the JS `end` field. -/
structure ClistRaw where
  start : Option Int
  finish : Option Int
  event : String
  href : String
  resource : String
deriving Repr, DecidableEq

/-- Platform-detection heuristic of `formatClistContests`
(contestService.js 300-320): resource name first, then URL host
substring, then contest-name substring; `none` = platform `'Unknown'`,
record dropped. -/
def classifyClistPlatform (resource url event : String) : Option String :=
  if strContains (strToLower resource) "atcoder" then some "AtCoder"
  else if strContains (strToLower resource) "codeforces" then some "Codeforces"
  else if strContains url "atcoder.jp" then some "AtCoder"
  else if strContains url "codeforces.com" then some "Codeforces"
  else if strContains (strToLower event) "atcoder" then some "AtCoder"
  else if strContains (strToLower event) "codeforces" then some "Codeforces"
  else none

/-- `formatClistContests` (contestService.js 268-343): drops records with
an invalid start or end date (lines 292-295) or unknown platform (lines
323-326); keeps the source's start/end instants unchanged — no ordering
between them is checked. -/
def formatClistContests (contests : List ClistRaw) : List Contest :=
  contests.filterMap fun r =>
    match r.start, r.finish with
    | some s, some e =>
        match classifyClistPlatform r.resource r.href r.event with
        | some p =>
            some { platform := p, name := r.event, startTimeMs := s,
                   endTimeMs := e, url := r.href }
        | none => none
    | _, _ => none

/- ### AtCoder scrape fallback (contestService.js 354-440) -/

/-- One `<tr>` of the scraped AtCoder upcoming-contests table that passed
both regex matches for name and start time (rows failing either match are
skipped by `continue`, lines 389-397). `duration` is `none` when the
duration cell failed its regex, in which case the source substitutes the
string `'2:00'` (line 407). -/
structure ScrapeRow where
  contestId : String
  name : String
  startTimeMs : Int
  duration : Option (Nat × Nat)
deriving Repr, DecidableEq

/-- Duration in ms of a scraped row: `(hours*60+minutes)*60*1000`, with
the `'2:00'` (two hours) default when the cell did not parse
(contestService.js 406-409). -/
def scrapeDurationMs (d : Option (Nat × Nat)) : Int :=
  let hm := d.getD (2, 0)
  ((hm.1 * 60 + hm.2) * 60 * 1000 : Nat)

/-- Formatting of the scraped rows (contestService.js 386-430): rows whose
start is before `now` are skipped, `endTimeMs = startTimeMs + durationMs`. -/
def scrapeContests (now : Int) (rows : List ScrapeRow) : List Contest :=
  rows.filterMap fun row =>
    if row.startTimeMs < now then none
    else some { platform := "AtCoder", name := row.name,
                startTimeMs := row.startTimeMs,
                endTimeMs := row.startTimeMs + scrapeDurationMs row.duration,
                url := "https://atcoder.jp/contests/" ++ row.contestId }

/-- Outcome of the direct `https://atcoder.jp/contests/` fetch
(contestService.js 356-440): a thrown error, a response without the
upcoming-contests section, or the parsed rows of that section. -/
inductive ScrapeApi
  | fail
  | noUpcomingSection
  | rows (rows : List ScrapeRow)
deriving Repr, DecidableEq

/- ### AtCoder Problems API (contestService.js 442-536) -/

/-- One element of kenkoooo's `contests.json`, with parsed dates
(`none` = `NaN`). -/
structure ProblemsRaw where
  id : String
  title : String
  startTime : Option Int
  endTime : Option Int
deriving Repr, DecidableEq

/-- Platform detection for a Problems-API record (contestService.js
494-508): AtCoder iff the id starts with abc/arc/agc or contains
'atcoder'; overridden to Codeforces when title or id contains
'codeforces'; otherwise Unknown (`none`). -/
def classifyProblemsPlatform (r : ProblemsRaw) : Option String :=
  let isActuallyAtCoder :=
    strStarts r.id "abc" || strStarts r.id "arc" || strStarts r.id "agc"
      || strContains r.id "atcoder"
  let base : Option String := if isActuallyAtCoder then some "AtCoder" else none
  if strContains (strToLower r.title) "codeforces"
      || strContains (strToLower r.id) "codeforces" then some "Codeforces"
  else base

/-- Map step of `fetchAtCoderContestsFromProblems` (contestService.js
480-532): record dropped on invalid dates or unknown platform; start and
end instants are taken from the source unchanged. -/
def formatProblemsContest (r : ProblemsRaw) : Option Contest :=
  match r.startTime, r.endTime with
  | some s, some e =>
      match classifyProblemsPlatform r with
      | some p =>
          some { platform := p, name := r.title, startTimeMs := s,
                 endTimeMs := e,
                 url := if p == "Codeforces"
                        then "https://codeforces.com/contests/" ++ r.id
                        else "https://atcoder.jp/contests/" ++ r.id }
      | none => none
  | _, _ => none

/-- Outcome of the `contests.json` request: thrown error, non-array
payload, or the raw list. -/
inductive ProblemsApi
  | fail
  | notArray
  | ok (result : List ProblemsRaw)
deriving Repr, DecidableEq

/-- `fetchAtCoderContestsFromProblems` (contestService.js 349-537):
first the direct scrape — returned only when it yields at least one
contest (line 432); then the Problems API, whose upcoming filter keeps
records with a valid start strictly after `now` (lines 462-471); every
failure path returns `[]` (lines 455-458, 533-536). -/
def fetchAtCoderContestsFromProblems (now : Int) (scrape : ScrapeApi)
    (api : ProblemsApi) : List Contest :=
  let scraped :=
    match scrape with
    | .rows rows => scrapeContests now rows
    | _ => []
  if scraped ≠ [] then scraped
  else
    match api with
    | .fail => []
    | .notArray => []
    | .ok result =>
        (result.filter fun r =>
          match r.startTime with
          | some s => decide (s > now)
          | none => false).filterMap formatProblemsContest

/- ### Clist.by cascade (`fetchAtCoderContests`, contestService.js 82-261) -/

/-- Outcome of one `axios.get` inside `attemptWithResourceId`
(contestService.js 145-196): a well-formed response carrying
`data.objects`, a received-but-malformed response (no `objects` array,
lines 156-162), a thrown timeout error (`ECONNABORTED`/`ETIMEDOUT`), or
any other thrown error. -/
inductive AttemptResult
  | ok (objects : List ClistRaw)
  | badFormat
  | errTimeout
  | errOther
deriving Repr, DecidableEq

/-- Escalating timeout of the `attempts`-th request:
`10000 * attempts` ms (contestService.js 143). -/
def clistAttemptTimeout (attempts : Nat) : Nat := 10000 * attempts

/-- The `while (attempts < maxAttempts)` loop of `attemptWithResourceId`
(contestService.js 141-197), with `fuel` = remaining iterations and
`attempts` the count so far; `oracle k` is what the `k`-th request
yields. Returns the value the loop produces (`some` = the `return
atcoderContests` at line 175, `none` = falling through to `return null`)
and the total number of attempts made. A malformed response and a thrown
timeout both `continue` (lines 161, 190-195); any other thrown error
`break`s (line 191). -/
def clistLoop (oracle : Nat → AttemptResult) :
    Nat → Nat → Option (List Contest) × Nat
  | 0, attempts => (none, attempts)
  | fuel + 1, attempts =>
      match oracle (attempts + 1) with
      | .ok objects =>
          if objects ≠ [] then
            if (formatClistContests objects).filter
                (fun c => c.platform == "AtCoder") ≠ [] then
              (some ((formatClistContests objects).filter
                (fun c => c.platform == "AtCoder")), attempts + 1)
            else (none, attempts + 1)
          else (none, attempts + 1)
      | .badFormat => clistLoop oracle fuel (attempts + 1)
      | .errTimeout => clistLoop oracle fuel (attempts + 1)
      | .errOther => (none, attempts + 1)

/-- `attemptWithResourceId` (contestService.js 116-200):
`maxAttempts = 3`, attempts counted from zero. -/
def attemptWithResourceId (oracle : Nat → AttemptResult) :
    Option (List Contest) × Nat :=
  clistLoop oracle 3 0

/-- Outcome of the single title-search request (contestService.js
214-246): thrown error (caught at line 244), malformed payload, or a
payload with `objects`. -/
inductive TitleSearchApi
  | fail
  | badFormat
  | ok (objects : List ClistRaw)
deriving Repr, DecidableEq

/-- The `event__icontains: 'atcoder'` search (contestService.js 210-247):
contributes contests only when the formatted, AtCoder-filtered list is
non-empty (lines 234-241). -/
def titleSearchContests : TitleSearchApi → Option (List Contest)
  | .ok objects =>
      if objects ≠ [] then
        let atcoder :=
          (formatClistContests objects).filter (fun c => c.platform == "AtCoder")
        if atcoder ≠ [] then some atcoder else none
      else none
  | _ => none

/-- What each Clist.by request of one `fetchAtCoderContests` call would
yield: per-attempt results for resource id 2, for resource id 93, and
for the title search. -/
structure ClistOracle where
  resource2 : Nat → AttemptResult
  resource93 : Nat → AttemptResult
  titleSearch : TitleSearchApi

/-- `fetchAtCoderContests` (contestService.js 82-261): missing or
placeholder Clist credentials fall back to the Problems API immediately
(lines 88-94); otherwise resource id 2, then 93, then the title search
are tried, and if none yields AtCoder contests the Problems API is the
last fallback (lines 203-260). `attemptWithResourceId` yields `some`
only for a non-empty list, so `!atcoderContests ||
atcoderContests.length === 0` is exactly `none` here. -/
def fetchAtCoderContests (credsConfigured : Bool) (o : ClistOracle)
    (now : Int) (scrape : ScrapeApi) (api : ProblemsApi) : List Contest :=
  if credsConfigured = false then
    fetchAtCoderContestsFromProblems now scrape api
  else
    match (attemptWithResourceId o.resource2).1 with
    | some cs => cs
    | none =>
        match (attemptWithResourceId o.resource93).1 with
        | some cs => cs
        | none =>
            match titleSearchContests o.titleSearch with
            | some cs => cs
            | none => fetchAtCoderContestsFromProblems now scrape api

/- ### Aggregation (`fetchContests`, contestService.js 543-601) -/

/-- Relevant process environment: `CONTEST_DAYS_AHEAD` (a parsed
non-negative integer, `none` when unset so that `'7'` is used,
contestService.js 546) and whether the Clist credentials are configured
and not placeholders (contestService.js 88-90). -/
structure Env where
  contestDaysAhead : Option Nat
  clistCredsConfigured : Bool

/-- `parseInt(process.env.CONTEST_DAYS_AHEAD || '7', 10)`. -/
def envDaysAhead (env : Env) : Nat := env.contestDaysAhead.getD 7

/-- What every external request of one `fetchContests` call would yield. -/
structure FetchOracle where
  cf : CFApi
  clist : ClistOracle
  scrape : ScrapeApi
  problems : ProblemsApi

/-- The JS sort comparator `(a, b) => a.startTimeMs - b.startTimeMs`
(contestService.js 594) as the ordering it realises. -/
def startLe (a b : Contest) : Prop := a.startTimeMs ≤ b.startTimeMs

instance : DecidableRel startLe := fun a b =>
  inferInstanceAs (Decidable (a.startTimeMs ≤ b.startTimeMs))

instance : IsTotal Contest startLe :=
  ⟨fun a b => Int.le_total a.startTimeMs b.startTimeMs⟩

instance : IsTrans Contest startLe :=
  ⟨fun _ _ _ hab hbc => Int.le_trans hab hbc⟩

/-- The window filter of `fetchContests` (contestService.js 582-588):
`startTimeMs >= now && startTimeMs <= futureDateMs`. -/
def inWindow (now futureDateMs : Int) (c : Contest) : Bool :=
  now ≤ c.startTimeMs && c.startTimeMs ≤ futureDateMs

/-- Lines 574-596 of contestService.js: concatenate the per-platform
lists (Codeforces first, line 575), filter to the look-ahead window and
sort ascending by `startTimeMs`. `Array.prototype.sort` is stable
(ES2019) and the comparator reads only `startTimeMs`; any stable sort
with the same comparator produces the same list, embedded here as the
stable `List.insertionSort` on `startLe`. No deduplication step exists. -/
def aggregate (now : Int) (daysAhead : Nat) (cf ac : List Contest) :
    List Contest :=
  let futureDateMs := now + (daysAhead : Int) * 24 * 60 * 60 * 1000
  let allContests := cf ++ ac
  let filteredContests := allContests.filter (inWindow now futureDateMs)
  List.insertionSort startLe filteredContests

/-- Body of `fetchContests` (contestService.js 543-601). The temporary
`CONTEST_DAYS_AHEAD` override to `max(daysAhead, 45)` (lines 549-561)
only widens the window sent to the Clist server, which is part of the
oracle; the filter window of line 579 uses the plain `daysAhead`. -/
def fetchContestsImpl (env : Env) (o : FetchOracle) (now : Int) :
    List Contest :=
  let daysAhead := envDaysAhead env
  let atcoderContests :=
    fetchAtCoderContests env.clistCredsConfigured o.clist now o.scrape o.problems
  let codeforcesContests := fetchCodeforcesContests o.cf
  aggregate now daysAhead codeforcesContests atcoderContests

/-- A JS call `fetchContests(arg1, ...)`: the function is declared with
no parameters (contestService.js 543), so JS binds none of the
arguments and the body runs identically whatever is passed. -/
def fetchContestsJS (_args : List Int) (env : Env) (o : FetchOracle)
    (now : Int) : List Contest :=
  fetchContestsImpl env o now

/-- The call `contestService.fetchContests(2)` in
`sendTodayContestReminders` (reminderService.js 132). -/
def sendTodayContestRemindersFetch (env : Env) (o : FetchOracle)
    (now : Int) : List Contest :=
  fetchContestsJS [2] env o now

/-- The call `contestService.fetchContests(3)` in
`checkTomorrowContests` (reminderService.js 229). -/
def checkTomorrowContestsFetch (env : Env) (o : FetchOracle)
    (now : Int) : List Contest :=
  fetchContestsJS [3] env o now

/- ### Reminder scheduling (`reminderService.js`) -/

/-- The `contestId` string built at reminderService.js line 352:
`platform + '-' + name + '-' + startTimeMs`. -/
def contestIdOf (c : Contest) : String :=
  c.platform ++ "-" ++ c.name ++ "-" ++ toString c.startTimeMs

/-- One armed reminder job, the data `scheduleReminder` closes over
(reminderService.js 51-119): the contest, the absolute fire instant,
the offset label (`timeText`) and the dedup key. -/
structure ReminderJob where
  contest : Contest
  reminderTime : Int
  timeText : String
  contestId : String
deriving Repr, DecidableEq

/-- The three offset blocks of `scheduleReminders` for one contest
(reminderService.js 350-371), in source order: a job is armed for an
offset exactly when its fire instant is strictly after `now`. -/
def remindersFor (now : Int) (c : Contest) : List ReminderJob :=
  (if c.startTimeMs - 24 * 60 * 60 * 1000 > now then
    [⟨c, c.startTimeMs - 24 * 60 * 60 * 1000, "1 day", contestIdOf c⟩] else []) ++
  (if c.startTimeMs - 6 * 60 * 60 * 1000 > now then
    [⟨c, c.startTimeMs - 6 * 60 * 60 * 1000, "6 hours", contestIdOf c⟩] else []) ++
  (if c.startTimeMs - 30 * 60 * 1000 > now then
    [⟨c, c.startTimeMs - 30 * 60 * 1000, "30 minutes", contestIdOf c⟩] else [])

/-- The jobs armed by one `scheduleReminders(client, contests)` call
(reminderService.js 341-372), after its initial `clearAllReminders()`. -/
def scheduleRemindersJobs (now : Int) (contests : List Contest) :
    List ReminderJob :=
  contests.flatMap (remindersFor now)

/-- The module-level `sentReminders` tracker (reminderService.js 8-12):
one dedup set per offset label, here as lists used as sets. -/
structure SentReminders where
  day : List String
  hours : List String
  minutes : List String
deriving Repr, DecidableEq

/-- Both sides of `sentReminders` after `clearAllReminders`
(reminderService.js 330-333). -/
def emptySentReminders : SentReminders := ⟨[], [], []⟩

/-- The dedup check-and-insert at the top of the timer callback
(reminderService.js 63-84): for the three known labels, a present key
means skip (`shouldSend = false`), an absent key is inserted; any other
label is neither tracked nor skipped. Returns the new tracker and
`shouldSend`. -/
def checkAndMark (s : SentReminders) (timeText contestId : String) :
    SentReminders × Bool :=
  if timeText = "1 day" then
    if s.day.contains contestId then (s, false)
    else ({ s with day := contestId :: s.day }, true)
  else if timeText = "6 hours" then
    if s.hours.contains contestId then (s, false)
    else ({ s with hours := contestId :: s.hours }, true)
  else if timeText = "30 minutes" then
    if s.minutes.contains contestId then (s, false)
    else ({ s with minutes := contestId :: s.minutes }, true)
  else (s, true)

/-- Membership of a `(timeText, contestId)` pair in the tracker. -/
def pairMarked (s : SentReminders) (timeText contestId : String) : Bool :=
  if timeText = "1 day" then s.day.contains contestId
  else if timeText = "6 hours" then s.hours.contains contestId
  else if timeText = "30 minutes" then s.minutes.contains contestId
  else false

/-- One elapsed timer: which job fired and what the environment would do
(`channelFound` = `client.channels.fetch` yields a channel, line 93-97;
`sinkOk` = `channel.send` resolves rather than rejects, line 110). -/
structure FireEvent where
  timeText : String
  contestId : String
  channelFound : Bool
  sinkOk : Bool
deriving Repr, DecidableEq

/-- What one timer callback did: skipped as a duplicate (line 86-89),
returned for a missing channel (line 94-97), delivered, or caught the
sink's rejection (line 115-117). The callback always returns a value —
the `try/catch` spanning its whole body means no outcome propagates an
exception to the timer library or to other jobs. -/
inductive FireOutcome
  | skippedDup
  | noChannel
  | sent
  | sinkError
deriving Repr, DecidableEq

/-- The timer callback of `scheduleReminder` (reminderService.js 61-118).
The dedup insertion happens before the channel fetch and the send, so
the tracker retains the pair on every non-duplicate path, including when
the sink throws. -/
def fireJob (s : SentReminders) (e : FireEvent) : SentReminders × FireOutcome :=
  if (checkAndMark s e.timeText e.contestId).2 = false then
    ((checkAndMark s e.timeText e.contestId).1, .skippedDup)
  else if e.channelFound = false then
    ((checkAndMark s e.timeText e.contestId).1, .noChannel)
  else if e.sinkOk then
    ((checkAndMark s e.timeText e.contestId).1, .sent)
  else ((checkAndMark s e.timeText e.contestId).1, .sinkError)

/-- `true` exactly for the outcomes in which `channel.send` was invoked. -/
def sinkInvoked : FireOutcome → Bool
  | .sent => true
  | .sinkError => true
  | _ => false

/-- Sequential execution of a list of elapsed timers against the shared
tracker, returning the final tracker and the trace of outcomes. Timer
callbacks run on the single JS event loop, so concurrent firings are a
sequence in some order; quantifying over every event list covers every
interleaving. -/
def runJobs (s : SentReminders) :
    List FireEvent → SentReminders × List (FireEvent × FireOutcome)
  | [] => (s, [])
  | e :: es =>
      ((runJobs (fireJob s e).1 es).1,
        (e, (fireJob s e).2) :: (runJobs (fireJob s e).1 es).2)

/-- Number of sink invocations for one `(timeText, contestId)` pair in a
trace. -/
def deliveriesFor (timeText contestId : String)
    (trace : List (FireEvent × FireOutcome)) : Nat :=
  (trace.filter fun p =>
    p.1.timeText == timeText && p.1.contestId == contestId
      && sinkInvoked p.2).length

/- ### The node-schedule global registry (`clearAllReminders`) -/

/-- An entry of `schedule.scheduledJobs`, node-schedule's process-global
job registry: either a reminder job armed by `scheduleReminder` or any
other job registered through the same library, such as the daily-refresh
cron job the ready handler registers (`schedule.scheduleJob(checkSchedule,
...)`, src/unnamed/part_004 lines 38-42). -/
inductive ScheduledJob
  | reminder (job : ReminderJob)
  | cron (name : String)
deriving Repr, DecidableEq

/-- Process-global scheduler state: the node-schedule registry and the
module-level `sentReminders` tracker. -/
structure SchedulerState where
  jobs : List ScheduledJob
  sent : SentReminders
deriving Repr, DecidableEq

/-- `clearAllReminders` (reminderService.js 324-334): iterates over every
key of `schedule.scheduledJobs` and cancels it — node-schedule removes a
cancelled job from the registry — then clears the three dedup sets. -/
def clearAllReminders (_st : SchedulerState) : SchedulerState :=
  { jobs := [], sent := emptySentReminders }

/-- `scheduleReminders` (reminderService.js 341-372) at registry level:
clear everything, then register one job per surviving (contest, offset)
pair. -/
def scheduleRemindersState (st : SchedulerState) (now : Int)
    (contests : List Contest) : SchedulerState :=
  let st' := clearAllReminders st
  { st' with
    jobs := (scheduleRemindersJobs now contests).map ScheduledJob.reminder }

/-- `refreshContests` (reminderService.js 288-319) at registry level:
`clearAllReminders()` then `scheduleReminders(client, contests)` (which
clears again). -/
def refreshContestsState (st : SchedulerState) (now : Int)
    (contests : List Contest) : SchedulerState :=
  scheduleRemindersState (clearAllReminders st) now contests

/- ### Spec-side predicates (formalising the claims' vocabulary) -/

/-- Spec §8: "For all Contest records `c1 != c2` produced by `Aggregate`,
`c1.identity != c2.identity`". -/
def identitiesUnique (l : List Contest) : Prop :=
  l.Pairwise (fun a b => identityOf a ≠ identityOf b)

instance (l : List Contest) : Decidable (identitiesUnique l) :=
  inferInstanceAs (Decidable (l.Pairwise fun a b => identityOf a ≠ identityOf b))

/-- Lexicographic comparison of char lists by code point — the ordering
JS string `<` realises on the ASCII platform and contest names at stake. -/
def charsLt : List Char → List Char → Bool
  | _, [] => false
  | [], _ :: _ => true
  | a :: as, b :: bs =>
      if a < b then true else if b < a then false else charsLt as bs

/-- String order used by the spec's tie-break vocabulary. -/
def strLt (s t : String) : Bool := charsLt s.toList t.toList

/-- Spec §4.3: ties broken "by `platform` name, then `name`". -/
def platformNameLe (a b : Contest) : Prop :=
  strLt a.platform b.platform = true ∨
    (a.platform = b.platform ∧ (strLt a.name b.name = true ∨ a.name = b.name))

instance (a b : Contest) : Decidable (platformNameLe a b) :=
  inferInstanceAs (Decidable (_ ∨ _))

/-- The ordering claim C2 asserts of the output: ascending by start time
with equal starts ordered by platform then name. -/
def tieBreakOrdered (l : List Contest) : Prop :=
  l.Pairwise (fun a b => a.startTimeMs < b.startTimeMs ∨
    (a.startTimeMs = b.startTimeMs ∧ platformNameLe a b))

instance (l : List Contest) : Decidable (tieBreakOrdered l) :=
  inferInstanceAs (Decidable (l.Pairwise fun (a b : Contest) =>
    a.startTimeMs < b.startTimeMs ∨
      (a.startTimeMs = b.startTimeMs ∧ platformNameLe a b)))

/-- The three offset labels the scheduler tracks (reminderService.js
66, 72, 78). -/
def trackedLabel (t : String) : Prop :=
  t = "1 day" ∨ t = "6 hours" ∨ t = "30 minutes"

instance (t : String) : Decidable (trackedLabel t) :=
  inferInstanceAs (Decidable (_ ∨ _ ∨ _))

/-- Claim C4's assertion about `attemptWithResourceId`: when the first
request yields malformed data, the fetcher "proceeds to the next adapter
without retrying the failed one", i.e. exactly one attempt is made. -/
def noRetryAfterBadFormat (oracle : Nat → AttemptResult) : Prop :=
  oracle 1 = AttemptResult.badFormat → (attemptWithResourceId oracle).2 = 1

/-- End-instant selection of `createContestEmbed` (embedFormatter.js
185-196). `endTimeStr` abstracts the `contest.endTime` display string:
`some t` when it is a string not containing 'Invalid' that parses to
instant `t`, `none` otherwise. JS number truthiness makes an `endTimeMs`
of 0 falsy, hence the `≠ 0` guard. The 2-hour default duration lives
here, in rendering, not in the adapters. -/
def embedEndMs (endTimeMs startTimeMs : Int) (endTimeStr : Option Int) : Int :=
  if endTimeMs ≠ 0 then endTimeMs
  else match endTimeStr with
    | some t => t
    | none => startTimeMs + 2 * 60 * 60 * 1000

/- ### Concrete inputs used by counterexamples and witnesses -/

/-- An upcoming Codeforces raw contest: starts 1 s after the epoch,
lasts 7200 s. -/
def cfRoundRaw : CFRaw :=
  { id := 1, name := "CF Round", phase := "BEFORE",
    startTimeSeconds := 1, durationSeconds := 7200 }

/-- An AtCoder Problems API record starting at the same instant as
`cfRoundRaw` (1000 ms). -/
def abcProblemsRaw : ProblemsRaw :=
  { id := "abc100", title := "AtCoder Beginner Contest",
    startTime := some 1000, endTime := some 8200000 }

/-- A Clist.by record whose end instant equals its start instant. -/
def zeroLenClistRaw : ClistRaw :=
  { start := some 5000, finish := some 5000,
    event := "AtCoder Beginner Contest 999",
    href := "https://atcoder.jp/contests/abc999",
    resource := "atcoder.jp" }

/-- A Clist oracle on which every request throws a non-timeout error. -/
def failingClist : ClistOracle :=
  ⟨fun _ => .errOther, fun _ => .errOther, .fail⟩

/-- Environment with unset `CONTEST_DAYS_AHEAD` and unconfigured Clist
credentials. -/
def envNoCreds : Env := { contestDaysAhead := none, clistCredsConfigured := false }

/-- Environment with unset `CONTEST_DAYS_AHEAD` and configured Clist
credentials. -/
def envCreds : Env := { contestDaysAhead := none, clistCredsConfigured := true }

/-- Oracle whose Codeforces response lists the same contest twice. -/
def dupCFOracle : FetchOracle :=
  { cf := .ok [cfRoundRaw, cfRoundRaw], clist := failingClist,
    scrape := .fail, problems := .fail }

/-- Oracle yielding one Codeforces and one AtCoder contest with equal
start instants. -/
def tieOracle : FetchOracle :=
  { cf := .ok [cfRoundRaw], clist := failingClist,
    scrape := .fail, problems := .ok [abcProblemsRaw] }

/-- Oracle on which every external request fails. -/
def allFailOracle : FetchOracle :=
  { cf := .fail, clist := failingClist, scrape := .fail, problems := .fail }

/-- Clist per-attempt oracle: the first request returns a received but
malformed payload, later ones throw a non-timeout error. -/
def badFormatFirst : Nat → AttemptResult :=
  fun k => if k = 1 then .badFormat else .errOther

/-- A contest starting two hours (7 200 000 ms) after `now = 0`. -/
def twoHourContest : Contest :=
  { platform := "Codeforces", name := "X", startTimeMs := 7200000,
    endTimeMs := 9000000, url := "https://codeforces.com/contests/9" }

/-- Two elapsed timers for the same `(offset, contestId)` pair — the
double-arming scenario of claim C3 — with a working channel and sink. -/
def dupFireEvents : List FireEvent :=
  [⟨"30 minutes", contestIdOf twoHourContest, true, true⟩,
   ⟨"30 minutes", contestIdOf twoHourContest, true, true⟩]

/-- A timer firing for the 30-minutes reminder of `twoHourContest` whose
channel lookup succeeds but whose `channel.send` rejects. -/
def sinkThrowEvent : FireEvent :=
  ⟨"30 minutes", contestIdOf twoHourContest, true, false⟩

/-- A registry holding the daily-refresh cron job and nothing else. -/
def cronOnlyState : SchedulerState :=
  { jobs := [ScheduledJob.cron "dailyRefresh"], sent := emptySentReminders }

/- ### Theorems -/

/-- C1 (counterexample): with a Codeforces response listing the same
contest twice, the list returned by `fetchContests` contains two records
with equal `(platform, name, startTimeMs)` — the aggregation performs no
deduplication, so the claimed identity-uniqueness fails. -/
theorem spec_C1_cex :
    ¬ identitiesUnique (fetchContestsImpl envNoCreds dupCFOracle 0) := by
  decide

/-- C1 (amended): `fetchContests` preserves multiplicities — its output
(the window-filtered concatenation, stably sorted) has pairwise distinct
identities exactly when the in-window records of the concatenated
adapter lists already do; no deduplication is applied. -/
theorem spec_C1 (now : Int) (daysAhead : Nat) (cf ac : List Contest) :
    identitiesUnique (aggregate now daysAhead cf ac) ↔
      identitiesUnique ((cf ++ ac).filter
        (inWindow now (now + (daysAhead : Int) * 24 * 60 * 60 * 1000))) := by
  unfold aggregate identitiesUnique
  exact (List.perm_insertionSort startLe _).pairwise_iff fun h => Ne.symm h

/-- C1 (witness): concrete instance of the amended claim. -/
theorem spec_C1_witness :
    identitiesUnique (aggregate 0 7 [formatCFContest cfRoundRaw] []) :=
  (spec_C1 0 7 [formatCFContest cfRoundRaw] []).mpr (by decide)

/-- C2 (counterexample): one Codeforces and one AtCoder contest with
equal start instants come back in concatenation order (Codeforces first)
because the sort comparator reads only `startTimeMs`; the claimed
platform-then-name tie-break would require the AtCoder record first, so
the claim fails. -/
theorem spec_C2_cex :
    ¬ tieBreakOrdered (fetchContestsImpl envNoCreds tieOracle 0) := by
  decide

/-- C2 (amended): the list returned by `fetchContests` is sorted
non-decreasing by `startTimeMs`; no platform/name tie-break is applied —
records with equal `startTimeMs` keep the order of the concatenated
adapter lists (stable sort). -/
theorem spec_C2 (env : Env) (o : FetchOracle) (now : Int) :
    List.Pairwise (fun a b : Contest => a.startTimeMs ≤ b.startTimeMs)
      (fetchContestsImpl env o now) :=
  List.sorted_insertionSort startLe _

/-- C2 (witness): concrete instance of the amended claim. -/
theorem spec_C2_witness :
    List.Pairwise (fun a b : Contest => a.startTimeMs ≤ b.startTimeMs)
      (fetchContestsImpl envNoCreds tieOracle 0) :=
  spec_C2 envNoCreds tieOracle 0

/-- C9: `fetchContests` is declared with no parameters, so a call's
arguments are ignored: `fetchContests(2)` (sendTodayContestReminders),
`fetchContests(3)` (checkTomorrowContests) and `fetchContests()` run the
same body, whose look-ahead window is `CONTEST_DAYS_AHEAD` with default
7 days. -/
theorem spec_C9 (a b : List Int) (env : Env) (o : FetchOracle) (now : Int) :
    fetchContestsJS a env o now = fetchContestsJS b env o now ∧
    sendTodayContestRemindersFetch env o now = fetchContestsJS [] env o now ∧
    checkTomorrowContestsFetch env o now = fetchContestsJS [] env o now ∧
    fetchContestsImpl env o now =
      aggregate now ((env.contestDaysAhead).getD 7)
        (fetchCodeforcesContests o.cf)
        (fetchAtCoderContests env.clistCredsConfigured o.clist now
          o.scrape o.problems) :=
  ⟨rfl, rfl, rfl, rfl⟩

/-- C9 (witness): concrete instance. -/
theorem spec_C9_witness :
    fetchContestsJS [2] envNoCreds allFailOracle 0
        = fetchContestsJS [3] envNoCreds allFailOracle 0 ∧
    sendTodayContestRemindersFetch envNoCreds allFailOracle 0
        = fetchContestsJS [] envNoCreds allFailOracle 0 ∧
    checkTomorrowContestsFetch envNoCreds allFailOracle 0
        = fetchContestsJS [] envNoCreds allFailOracle 0 ∧
    fetchContestsImpl envNoCreds allFailOracle 0 =
      aggregate 0 ((envNoCreds.contestDaysAhead).getD 7)
        (fetchCodeforcesContests allFailOracle.cf)
        (fetchAtCoderContests envNoCreds.clistCredsConfigured
          allFailOracle.clist 0 allFailOracle.scrape allFailOracle.problems) :=
  spec_C9 [2] [3] envNoCreds allFailOracle 0

/-- C10: `clearAllReminders` cancels every job in the process-global
node-schedule registry — reminder tasks and any other job registered
through the library, such as the daily-refresh cron job — and
`scheduleReminders` leaves exactly the jobs it arms afterwards. -/
theorem spec_C10 (st : SchedulerState) (now : Int) (contests : List Contest)
    (n : String) :
    (clearAllReminders st).jobs = [] ∧
    (clearAllReminders st).sent = emptySentReminders ∧
    (ScheduledJob.cron n ∈ st.jobs →
      ScheduledJob.cron n ∉ (scheduleRemindersState st now contests).jobs) ∧
    (scheduleRemindersState st now contests).jobs
      = (scheduleRemindersJobs now contests).map ScheduledJob.reminder ∧
    (refreshContestsState st now contests).jobs
      = (scheduleRemindersJobs now contests).map ScheduledJob.reminder := by
  refine ⟨rfl, rfl, ?_, rfl, rfl⟩
  intro _ hmem
  simp only [scheduleRemindersState, clearAllReminders, List.mem_map] at hmem
  obtain ⟨j, -, hj⟩ := hmem
  exact ScheduledJob.noConfusion hj

/-- C10 (witness): the daily-refresh cron job present before re-arming
is gone afterwards. -/
theorem spec_C10_witness :
    ScheduledJob.cron "dailyRefresh" ∈ cronOnlyState.jobs ∧
    ScheduledJob.cron "dailyRefresh"
      ∉ (scheduleRemindersState cronOnlyState 0 [twoHourContest]).jobs :=
  ⟨by decide,
   (spec_C10 cronOnlyState 0 [twoHourContest] "dailyRefresh").2.2.1 (by decide)⟩

/-- One-step unfolding of the retry loop on a malformed response: the
loop retries. -/
theorem clistLoop_badFormat_step (oracle : Nat → AttemptResult) (fuel a : Nat)
    (h : oracle (a + 1) = AttemptResult.badFormat) :
    clistLoop oracle (fuel + 1) a = clistLoop oracle fuel (a + 1) := by
  simp only [clistLoop, h]

/-- One-step unfolding of the retry loop on a thrown timeout: the loop
retries. -/
theorem clistLoop_errTimeout_step (oracle : Nat → AttemptResult) (fuel a : Nat)
    (h : oracle (a + 1) = AttemptResult.errTimeout) :
    clistLoop oracle (fuel + 1) a = clistLoop oracle fuel (a + 1) := by
  simp only [clistLoop, h]

/-- One-step unfolding of the retry loop on any other thrown error: the
loop stops. -/
theorem clistLoop_errOther_step (oracle : Nat → AttemptResult) (fuel a : Nat)
    (h : oracle (a + 1) = AttemptResult.errOther) :
    clistLoop oracle (fuel + 1) a = (none, a + 1) := by
  simp only [clistLoop, h]

/-- One-step unfolding of the retry loop on a well-formed response: the
loop exits at this attempt. -/
theorem clistLoop_ok_step (oracle : Nat → AttemptResult) (fuel a : Nat)
    (objects : List ClistRaw) (h : oracle (a + 1) = AttemptResult.ok objects) :
    clistLoop oracle (fuel + 1) a =
      (if objects ≠ [] then
        if (formatClistContests objects).filter
            (fun c => c.platform == "AtCoder") ≠ [] then
          (some ((formatClistContests objects).filter
            (fun c => c.platform == "AtCoder")), a + 1)
        else (none, a + 1)
      else (none, a + 1)) := by
  simp only [clistLoop, h]

/-- Every exit of the retry loop leaves the attempt counter at least
where it started. -/
theorem clistLoop_snd_ge (oracle : Nat → AttemptResult) :
    ∀ fuel a, a ≤ (clistLoop oracle fuel a).2 := by
  intro fuel
  induction fuel with
  | zero => intro a; exact le_refl a
  | succ n ih =>
      intro a
      cases hk : oracle (a + 1) with
      | ok objects =>
          rw [clistLoop_ok_step oracle n a objects hk]
          split_ifs <;> omega
      | badFormat =>
          rw [clistLoop_badFormat_step oracle n a hk]
          exact le_trans (Nat.le_succ a) (ih (a + 1))
      | errTimeout =>
          rw [clistLoop_errTimeout_step oracle n a hk]
          exact le_trans (Nat.le_succ a) (ih (a + 1))
      | errOther =>
          rw [clistLoop_errOther_step oracle n a hk]
          exact Nat.le_succ a

/-- The retry loop makes at most `fuel` further attempts. -/
theorem clistLoop_snd_le (oracle : Nat → AttemptResult) :
    ∀ fuel a, (clistLoop oracle fuel a).2 ≤ a + fuel := by
  intro fuel
  induction fuel with
  | zero => intro a; exact Nat.le_refl a
  | succ n ih =>
      intro a
      cases hk : oracle (a + 1) with
      | ok objects =>
          rw [clistLoop_ok_step oracle n a objects hk]
          split_ifs <;> omega
      | badFormat =>
          rw [clistLoop_badFormat_step oracle n a hk]
          exact le_trans (ih (a + 1)) (by omega)
      | errTimeout =>
          rw [clistLoop_errTimeout_step oracle n a hk]
          exact le_trans (ih (a + 1)) (by omega)
      | errOther =>
          rw [clistLoop_errOther_step oracle n a hk]
          omega

/-- With fuel remaining, the loop makes at least one further attempt. -/
theorem clistLoop_snd_ge_one (oracle : Nat → AttemptResult) :
    ∀ fuel a, 1 ≤ fuel → a + 1 ≤ (clistLoop oracle fuel a).2 := by
  intro fuel
  cases fuel with
  | zero => intro a h; omega
  | succ n =>
      intro a _
      cases hk : oracle (a + 1) with
      | ok objects =>
          rw [clistLoop_ok_step oracle n a objects hk]
          split_ifs <;> omega
      | badFormat =>
          rw [clistLoop_badFormat_step oracle n a hk]
          exact clistLoop_snd_ge oracle n (a + 1)
      | errTimeout =>
          rw [clistLoop_errTimeout_step oracle n a hk]
          exact clistLoop_snd_ge oracle n (a + 1)
      | errOther =>
          rw [clistLoop_errOther_step oracle n a hk]

/-- C4 (counterexample): on an oracle whose first request yields a
received-but-malformed payload, `attemptWithResourceId` makes a second
attempt on the same resource (the `continue` at contestService.js 161)
instead of moving to the next adapter — refuting the claim that
malformed data is never retried on the same adapter. -/
theorem spec_C4_cex : ¬ noRetryAfterBadFormat badFormatFirst := by
  intro h
  have h2 := h rfl
  have hstep : clistLoop badFormatFirst 3 0 = clistLoop badFormatFirst 2 1 :=
    clistLoop_badFormat_step badFormatFirst 2 0 rfl
  rw [attemptWithResourceId, hstep] at h2
  have := clistLoop_snd_ge_one badFormatFirst 2 1 (by omega)
  omega

/-- C4 (amended): `attemptWithResourceId` makes at most 3 attempts with
escalating timeouts 10 s / 20 s / 30 s; a thrown non-timeout error stops
retrying at once (moving to the next adapter), while both a thrown
timeout AND a received-but-malformed payload cause a retry of the same
resource. -/
theorem spec_C4 (oracle : Nat → AttemptResult) :
    (attemptWithResourceId oracle).2 ≤ 3 ∧
    (oracle 1 = AttemptResult.errOther → (attemptWithResourceId oracle).2 = 1) ∧
    (oracle 1 = AttemptResult.badFormat → 2 ≤ (attemptWithResourceId oracle).2) ∧
    (oracle 1 = AttemptResult.errTimeout → 2 ≤ (attemptWithResourceId oracle).2) ∧
    clistAttemptTimeout 1 = 10000 ∧ clistAttemptTimeout 2 = 20000 ∧
    clistAttemptTimeout 3 = 30000 := by
  refine ⟨?_, ?_, ?_, ?_, rfl, rfl, rfl⟩
  · simpa using clistLoop_snd_le oracle 3 0
  · intro h
    rw [attemptWithResourceId, clistLoop_errOther_step oracle 2 0 h]
  · intro h
    rw [attemptWithResourceId, clistLoop_badFormat_step oracle 2 0 h]
    exact clistLoop_snd_ge_one oracle 2 1 (by omega)
  · intro h
    rw [attemptWithResourceId, clistLoop_errTimeout_step oracle 2 0 h]
    exact clistLoop_snd_ge_one oracle 2 1 (by omega)



/-- If no request of the oracle ever yields a non-empty well-formed
payload, the retry loop produces no contests. -/
theorem clistLoop_none_of_no_ok (oracle : Nat → AttemptResult)
    (h : ∀ k objects, oracle k = AttemptResult.ok objects → objects = []) :
    ∀ fuel a, (clistLoop oracle fuel a).1 = none := by
  intro fuel
  induction fuel with
  | zero => intro a; rfl
  | succ n ih =>
      intro a
      cases hk : oracle (a + 1) with
      | ok objects =>
          rw [clistLoop_ok_step oracle n a objects hk]
          have hobj := h _ _ hk
          subst hobj
          simp
      | badFormat =>
          rw [clistLoop_badFormat_step oracle n a hk]
          exact ih (a + 1)
      | errTimeout =>
          rw [clistLoop_errTimeout_step oracle n a hk]
          exact ih (a + 1)
      | errOther =>
          rw [clistLoop_errOther_step oracle n a hk]

/-- C5: when every adapter in the cascade fails — thrown errors, non-OK
status or empty payload for Codeforces; only failures or empty payloads
from every Clist.by request; a failed or sectionless scrape; a failed or
non-array Problems API — `fetchCodeforcesContests`,
`fetchAtCoderContestsFromProblems`, `fetchAtCoderContests` and
`fetchContests` all return `[]`. In this embedding the functions are
total, which is the image of the source's catch-all handlers: no
exception propagates to the caller. -/
theorem spec_C5 (env : Env) (o : FetchOracle) (now : Int)
    (hcf : o.cf = CFApi.fail ∨ (∃ s, o.cf = CFApi.nonOK s) ∨ o.cf = CFApi.ok [])
    (h2 : ∀ k objects,
      o.clist.resource2 k = AttemptResult.ok objects → objects = [])
    (h93 : ∀ k objects,
      o.clist.resource93 k = AttemptResult.ok objects → objects = [])
    (htl : ∀ objects,
      o.clist.titleSearch = TitleSearchApi.ok objects → objects = [])
    (hs : o.scrape = ScrapeApi.fail ∨ o.scrape = ScrapeApi.noUpcomingSection)
    (hp : o.problems = ProblemsApi.fail ∨ o.problems = ProblemsApi.notArray) :
    fetchCodeforcesContests o.cf = [] ∧
    fetchAtCoderContestsFromProblems now o.scrape o.problems = [] ∧
    fetchAtCoderContests env.clistCredsConfigured o.clist now
      o.scrape o.problems = [] ∧
    fetchContestsImpl env o now = [] := by
  have hcfe : fetchCodeforcesContests o.cf = [] := by
    rcases hcf with h | ⟨s, h⟩ | h <;> rw [h] <;> rfl
  have hprob : fetchAtCoderContestsFromProblems now o.scrape o.problems = [] := by
    rcases hs with h | h <;> rcases hp with h' | h' <;> rw [h, h'] <;> rfl
  have hclr2 : (attemptWithResourceId o.clist.resource2).1 = none :=
    clistLoop_none_of_no_ok _ h2 3 0
  have hclr93 : (attemptWithResourceId o.clist.resource93).1 = none :=
    clistLoop_none_of_no_ok _ h93 3 0
  have hts : titleSearchContests o.clist.titleSearch = none := by
    cases hk : o.clist.titleSearch with
    | fail => rfl
    | badFormat => rfl
    | ok objects =>
        have hobj := htl _ hk
        subst hobj
        simp [titleSearchContests]
  have hat : fetchAtCoderContests env.clistCredsConfigured o.clist now
      o.scrape o.problems = [] := by
    unfold fetchAtCoderContests
    cases hcreds : env.clistCredsConfigured with
    | false => simpa using hprob
    | true => simp [hclr2, hclr93, hts, hprob]
  refine ⟨hcfe, hprob, hat, ?_⟩
  show aggregate now (envDaysAhead env) (fetchCodeforcesContests o.cf)
    (fetchAtCoderContests env.clistCredsConfigured o.clist now
      o.scrape o.problems) = []
  rw [hat, hcfe]
  rfl

/-- C5 (witness): the all-failing oracle with configured credentials
(exercising the full Clist cascade) yields `[]` everywhere. -/
theorem spec_C5_witness :
    fetchCodeforcesContests allFailOracle.cf = [] ∧
    fetchAtCoderContestsFromProblems 0 allFailOracle.scrape
      allFailOracle.problems = [] ∧
    fetchAtCoderContests envCreds.clistCredsConfigured allFailOracle.clist 0
      allFailOracle.scrape allFailOracle.problems = [] ∧
    fetchContestsImpl envCreds allFailOracle 0 = [] :=
  spec_C5 envCreds allFailOracle 0 (Or.inl rfl)
    (fun _ _ h => nomatch h) (fun _ _ h => nomatch h) (fun _ h => nomatch h)
    (Or.inl rfl) (Or.inl rfl)

/-- `checkAndMark` never removes an id from the `day` set. -/
theorem checkAndMark_day_sub (s : SentReminders) (t' id' x : String)
    (h : s.day.contains x = true) :
    ((checkAndMark s t' id').1).day.contains x = true := by
  unfold checkAndMark
  split_ifs <;> simp_all [List.contains_cons]

/-- `checkAndMark` never removes an id from the `hours` set. -/
theorem checkAndMark_hours_sub (s : SentReminders) (t' id' x : String)
    (h : s.hours.contains x = true) :
    ((checkAndMark s t' id').1).hours.contains x = true := by
  unfold checkAndMark
  split_ifs <;> simp_all [List.contains_cons]

/-- `checkAndMark` never removes an id from the `minutes` set. -/
theorem checkAndMark_minutes_sub (s : SentReminders) (t' id' x : String)
    (h : s.minutes.contains x = true) :
    ((checkAndMark s t' id').1).minutes.contains x = true := by
  unfold checkAndMark
  split_ifs <;> simp_all [List.contains_cons]

/-- The state of a fired job is always the checked-and-marked tracker. -/
theorem fireJob_fst (s : SentReminders) (e : FireEvent) :
    (fireJob s e).1 = (checkAndMark s e.timeText e.contestId).1 := by
  unfold fireJob
  split_ifs <;> rfl

/-- Marked pairs stay marked through any timer callback. -/
theorem pairMarked_fireJob_mono (s : SentReminders) (e : FireEvent)
    (t id : String) (h : pairMarked s t id = true) :
    pairMarked (fireJob s e).1 t id = true := by
  rw [fireJob_fst]
  unfold pairMarked at h ⊢
  split_ifs at h ⊢
  · exact checkAndMark_day_sub s e.timeText e.contestId id h
  · exact checkAndMark_hours_sub s e.timeText e.contestId id h
  · exact checkAndMark_minutes_sub s e.timeText e.contestId id h

/-- On a marked pair, the dedup check returns the tracker unchanged and
`shouldSend = false` (reminderService.js 67-68, 73-74, 79-80). -/
theorem checkAndMark_marked (s : SentReminders) (t id : String)
    (h : pairMarked s t id = true) :
    checkAndMark s t id = (s, false) := by
  unfold pairMarked at h
  unfold checkAndMark
  split_ifs at h ⊢ <;> simp_all

/-- On an unmarked tracked pair, the dedup check inserts the pair and
reports `shouldSend = true` (reminderService.js 70, 76, 82). -/
theorem checkAndMark_unmarked (s : SentReminders) (t id : String)
    (ht : trackedLabel t) (h : pairMarked s t id = false) :
    (checkAndMark s t id).2 = true ∧
      pairMarked (checkAndMark s t id).1 t id = true := by
  rcases ht with h1 | h1 | h1 <;> subst h1 <;>
    simp_all [pairMarked, checkAndMark, List.contains_cons]

/-- A timer firing on an already-marked pair skips silently and leaves
the tracker unchanged (reminderService.js 86-89). -/
theorem fireJob_skipped (s : SentReminders) (e : FireEvent)
    (h : pairMarked s e.timeText e.contestId = true) :
    fireJob s e = (s, FireOutcome.skippedDup) := by
  unfold fireJob
  rw [checkAndMark_marked s e.timeText e.contestId h]
  simp

/-- A branch-by-branch split of `deliveriesFor` over a trace head. -/
theorem deliveriesFor_cons (t id : String) (p : FireEvent × FireOutcome)
    (tr : List (FireEvent × FireOutcome)) :
    deliveriesFor t id (p :: tr) =
      (if (p.1.timeText == t && p.1.contestId == id && sinkInvoked p.2) = true
       then 1 else 0) + deliveriesFor t id tr := by
  unfold deliveriesFor
  rw [List.filter_cons]
  split_ifs with hp <;> simp [hp, Nat.add_comm]

/-- Once a tracked pair is marked, no later firing invokes the sink for
it. -/
theorem runJobs_deliveries_zero (t id : String) :
    ∀ (es : List FireEvent) (s : SentReminders),
      pairMarked s t id = true →
      deliveriesFor t id (runJobs s es).2 = 0 := by
  intro es
  induction es with
  | nil => intro s _; rfl
  | cons e es ih =>
      intro s h
      rw [runJobs, deliveriesFor_cons]
      by_cases h1 : e.timeText = t
      · by_cases h2 : e.contestId = id
        · have hm : pairMarked s e.timeText e.contestId = true := by
            rw [h1, h2]; exact h
          rw [fireJob_skipped s e hm]
          simpa [sinkInvoked] using ih s h
        · simpa [h2] using ih _ (pairMarked_fireJob_mono s e t id h)
      · simpa [h1] using ih _ (pairMarked_fireJob_mono s e t id h)

/-- C3: within one arming epoch (dedup sets cleared at the start), any
sequence of elapsed timers — including the two jobs for the same pair
produced by arming twice — invokes the delivery sink at most once per
`(offset label, contestId)` pair: the first firing marks the pair and
sends, every later one finds it marked and returns silently. -/
theorem spec_C3 (events : List FireEvent) (t id : String)
    (ht : trackedLabel t) :
    deliveriesFor t id (runJobs emptySentReminders events).2 ≤ 1 := by
  have main : ∀ (es : List FireEvent) (s : SentReminders),
      deliveriesFor t id (runJobs s es).2 ≤ 1 := by
    intro es
    induction es with
    | nil => intro s; simp [runJobs, deliveriesFor]
    | cons e es ih =>
        intro s
        by_cases hmem : pairMarked s t id = true
        · rw [runJobs_deliveries_zero t id (e :: es) s hmem]
          omega
        · rw [runJobs, deliveriesFor_cons]
          by_cases h1 : e.timeText = t
          · by_cases h2 : e.contestId = id
            · have hm : pairMarked s e.timeText e.contestId = false := by
                rw [h1, h2]
                exact eq_false_of_ne_true hmem
              have ht' : trackedLabel e.timeText := by rw [h1]; exact ht
              have hmarked : pairMarked (fireJob s e).1 t id = true := by
                rw [fireJob_fst, ← h1, ← h2]
                exact (checkAndMark_unmarked s e.timeText e.contestId ht' hm).2
              rw [runJobs_deliveries_zero t id es _ hmarked]
              split_ifs <;> omega
            · simpa [h2] using ih (fireJob s e).1
          · simpa [h1] using ih (fireJob s e).1
  exact main events emptySentReminders

/-- C3 (witness): the double-armed 30-minutes reminder fires the sink at
most once. -/
theorem spec_C3_witness :
    trackedLabel "30 minutes" ∧
    deliveriesFor "30 minutes" (contestIdOf twoHourContest)
      (runJobs emptySentReminders dupFireEvents).2 ≤ 1 :=
  ⟨by decide, spec_C3 dupFireEvents "30 minutes" (contestIdOf twoHourContest)
    (by decide)⟩

/-- C7: when the sink rejects during a firing of an unmarked tracked
pair, the callback records the pair before attempting the send, ends in
the caught-error outcome (it returns a value, never propagating the
rejection), and every later firing for the same pair skips silently —
the reminder is never re-delivered. -/
theorem spec_C7 (s : SentReminders) (e : FireEvent)
    (ht : trackedLabel e.timeText)
    (hm : pairMarked s e.timeText e.contestId = false)
    (hch : e.channelFound = true) (hsk : e.sinkOk = false) :
    (fireJob s e).2 = FireOutcome.sinkError ∧
    pairMarked (fireJob s e).1 e.timeText e.contestId = true ∧
    ∀ e' : FireEvent, e'.timeText = e.timeText → e'.contestId = e.contestId →
      fireJob (fireJob s e).1 e'
        = ((fireJob s e).1, FireOutcome.skippedDup) := by
  obtain ⟨hcm2, hcm1⟩ := checkAndMark_unmarked s e.timeText e.contestId ht hm
  have hout : (fireJob s e).2 = FireOutcome.sinkError := by
    unfold fireJob
    rw [hcm2]
    simp [hch, hsk]
  have hmarked : pairMarked (fireJob s e).1 e.timeText e.contestId = true := by
    rw [fireJob_fst]
    exact hcm1
  refine ⟨hout, hmarked, ?_⟩
  intro e' h1 h2
  have hm' : pairMarked (fireJob s e).1 e'.timeText e'.contestId = true := by
    rw [h1, h2]
    exact hmarked
  exact fireJob_skipped (fireJob s e).1 e' hm'

/-- C7 (witness): concrete sink rejection on the 30-minutes reminder. -/
theorem spec_C7_witness :
    (fireJob emptySentReminders sinkThrowEvent).2 = FireOutcome.sinkError ∧
    pairMarked (fireJob emptySentReminders sinkThrowEvent).1
      sinkThrowEvent.timeText sinkThrowEvent.contestId = true ∧
    fireJob (fireJob emptySentReminders sinkThrowEvent).1 sinkThrowEvent
      = ((fireJob emptySentReminders sinkThrowEvent).1,
          FireOutcome.skippedDup) := by
  obtain ⟨h1, h2, h3⟩ :=
    spec_C7 emptySentReminders sinkThrowEvent (by decide) (by decide) rfl rfl
  exact ⟨h1, h2, h3 sinkThrowEvent rfl rfl⟩

/-- Membership in a conditional singleton. -/
theorem mem_if_singleton {P : Prop} [Decidable P] (x j : ReminderJob) :
    (j ∈ (if P then [x] else [])) ↔ (P ∧ j = x) := by
  split_ifs with h <;> simp [h]

/-- The jobs `scheduleReminders` arms for one contest, characterised. -/
theorem mem_remindersFor (now : Int) (a : Contest) (j : ReminderJob) :
    j ∈ remindersFor now a ↔
      ((a.startTimeMs - 24 * 60 * 60 * 1000 > now ∧
          j = ⟨a, a.startTimeMs - 24 * 60 * 60 * 1000, "1 day", contestIdOf a⟩) ∨
       (a.startTimeMs - 6 * 60 * 60 * 1000 > now ∧
          j = ⟨a, a.startTimeMs - 6 * 60 * 60 * 1000, "6 hours", contestIdOf a⟩) ∨
       (a.startTimeMs - 30 * 60 * 1000 > now ∧
          j = ⟨a, a.startTimeMs - 30 * 60 * 1000, "30 minutes", contestIdOf a⟩)) := by
  unfold remindersFor
  simp [List.mem_append, mem_if_singleton]

/-- C6: `scheduleReminders` creates the task for `(contest, offset)` if
and only if the contest is in the list and the fire instant
`startTimeMs - offset` is still strictly in the future at arming time —
for each of the three configured offsets (1 day, 6 hours, 30 minutes). -/
theorem spec_C6 (now : Int) (contests : List Contest) (c : Contest)
    (timeText : String) (off : Int)
    (hoff : (timeText, off) ∈
      [("1 day", (86400000 : Int)), ("6 hours", 21600000),
       ("30 minutes", 1800000)]) :
    ((⟨c, c.startTimeMs - off, timeText, contestIdOf c⟩ : ReminderJob)
        ∈ scheduleRemindersJobs now contests)
      ↔ (c ∈ contests ∧ c.startTimeMs - off > now) := by
  simp only [scheduleRemindersJobs, List.mem_flatMap]
  have hoff' : (timeText = "1 day" ∧ off = 86400000) ∨
      (timeText = "6 hours" ∧ off = 21600000) ∨
      (timeText = "30 minutes" ∧ off = 1800000) := by
    simpa using hoff
  rcases hoff' with ⟨ht, ho⟩ | ⟨ht, ho⟩ | ⟨ht, ho⟩ <;> subst ht <;> subst ho
  · constructor
    · rintro ⟨a, ha, hj⟩
      rw [mem_remindersFor] at hj
      simp only [ReminderJob.mk.injEq] at hj
      rcases hj with ⟨hgt, hc, -, -, -⟩ | ⟨-, -, -, hl, -⟩ | ⟨-, -, -, hl, -⟩
      · subst hc; exact ⟨ha, hgt⟩
      · exact absurd hl (by decide)
      · exact absurd hl (by decide)
    · rintro ⟨hc, hgt⟩
      exact ⟨c, hc, (mem_remindersFor now c _).mpr (Or.inl ⟨hgt, rfl⟩)⟩
  · constructor
    · rintro ⟨a, ha, hj⟩
      rw [mem_remindersFor] at hj
      simp only [ReminderJob.mk.injEq] at hj
      rcases hj with ⟨-, -, -, hl, -⟩ | ⟨hgt, hc, -, -, -⟩ | ⟨-, -, -, hl, -⟩
      · exact absurd hl (by decide)
      · subst hc; exact ⟨ha, hgt⟩
      · exact absurd hl (by decide)
    · rintro ⟨hc, hgt⟩
      exact ⟨c, hc, (mem_remindersFor now c _).mpr (Or.inr (Or.inl ⟨hgt, rfl⟩))⟩
  · constructor
    · rintro ⟨a, ha, hj⟩
      rw [mem_remindersFor] at hj
      simp only [ReminderJob.mk.injEq] at hj
      rcases hj with ⟨-, -, -, hl, -⟩ | ⟨-, -, -, hl, -⟩ | ⟨hgt, hc, -, -, -⟩
      · exact absurd hl (by decide)
      · exact absurd hl (by decide)
      · subst hc; exact ⟨ha, hgt⟩
    · rintro ⟨hc, hgt⟩
      exact ⟨c, hc, (mem_remindersFor now c _).mpr (Or.inr (Or.inr ⟨hgt, rfl⟩))⟩

/-- C6 (witness): a contest starting 2 hours from now gets exactly the
30-minutes task — no 1-day and no 6-hours task. -/
theorem spec_C6_witness :
    ((⟨twoHourContest, twoHourContest.startTimeMs - 1800000, "30 minutes",
        contestIdOf twoHourContest⟩ : ReminderJob)
      ∈ scheduleRemindersJobs 0 [twoHourContest]) ∧
    scheduleRemindersJobs 0 [twoHourContest] =
      [⟨twoHourContest, 5400000, "30 minutes", contestIdOf twoHourContest⟩] :=
  ⟨(spec_C6 0 [twoHourContest] twoHourContest "30 minutes" 1800000
      (by decide)).mpr ⟨by decide, by decide⟩,
   by decide⟩

/-- C8 (counterexample): a Clist.by record whose end instant equals its
start instant passes `formatClistContests` unchanged, so the produced
Contest violates `startTime < endTime` — the adapters do not enforce the
claimed invariant. -/
theorem spec_C8_cex :
    ¬ ∀ c ∈ formatClistContests [zeroLenClistRaw],
        c.startTimeMs < c.endTimeMs := by
  decide

/-- C8 (amended): the adapters copy the source's instants without
enforcing `startTime < endTime`. A Codeforces record has
`endTimeMs = startTimeMs + 1000 * durationSeconds`, so the invariant
holds iff the source's duration is positive; a Clist record carries the
source's start and end unchanged; a scraped AtCoder row has
`endTimeMs = startTimeMs + durationMs` with the 2-hour default exactly
when the duration cell is missing; and the 2-hour default for a missing
`endTimeMs` otherwise lives in embed rendering (`createContestEmbed`),
not in the adapters. -/
theorem spec_C8 :
    (∀ (raws : List CFRaw) (c : Contest),
       c ∈ fetchCodeforcesContests (CFApi.ok raws) →
       ∃ r ∈ raws, r.phase = "BEFORE" ∧
         c.startTimeMs = r.startTimeSeconds * 1000 ∧
         c.endTimeMs = r.startTimeSeconds * 1000 + r.durationSeconds * 1000 ∧
         (c.startTimeMs < c.endTimeMs ↔ 0 < r.durationSeconds)) ∧
    (∀ (raws : List ClistRaw) (c : Contest),
       c ∈ formatClistContests raws →
       ∃ r ∈ raws, r.start = some c.startTimeMs ∧
         r.finish = some c.endTimeMs) ∧
    (∀ (now : Int) (rows : List ScrapeRow) (c : Contest),
       c ∈ scrapeContests now rows →
       ∃ row ∈ rows, c.startTimeMs = row.startTimeMs ∧
         c.endTimeMs = row.startTimeMs + scrapeDurationMs row.duration ∧
         (row.duration = none → c.endTimeMs = row.startTimeMs + 7200000)) ∧
    (∀ startMs : Int, embedEndMs 0 startMs none = startMs + 7200000) := by
  refine ⟨?_, ?_, ?_, fun _ => rfl⟩
  · intro raws c hc
    simp only [fetchCodeforcesContests, List.mem_map, List.mem_filter] at hc
    obtain ⟨r, ⟨hr, hphase⟩, hfc⟩ := hc
    refine ⟨r, hr, by simpa using hphase, ?_⟩
    subst hfc
    refine ⟨rfl, rfl, ?_⟩
    unfold formatCFContest
    dsimp only
    constructor <;> intro h <;> omega
  · intro raws c hc
    simp only [formatClistContests, List.mem_filterMap] at hc
    obtain ⟨r, hr, hfr⟩ := hc
    refine ⟨r, hr, ?_⟩
    cases hs : r.start with
    | none => rw [hs] at hfr; exact absurd hfr (by simp)
    | some s =>
        cases he : r.finish with
        | none => rw [hs, he] at hfr; exact absurd hfr (by simp)
        | some e =>
            rw [hs, he] at hfr
            cases hp : classifyClistPlatform r.resource r.href r.event with
            | none => rw [hp] at hfr; exact absurd hfr (by simp)
            | some p =>
                rw [hp] at hfr
                simp only [Option.some.injEq] at hfr
                subst hfr
                exact ⟨rfl, rfl⟩
  · intro now rows c hc
    simp only [scrapeContests, List.mem_filterMap] at hc
    obtain ⟨row, hrow, hfr⟩ := hc
    refine ⟨row, hrow, ?_⟩
    by_cases hlt : row.startTimeMs < now
    · rw [if_pos hlt] at hfr
      exact absurd hfr (by simp)
    · rw [if_neg hlt] at hfr
      simp only [Option.some.injEq] at hfr
      subst hfr
      refine ⟨rfl, rfl, ?_⟩
      intro hd
      rw [hd]
      rfl

/-- C8 (witness): the amended claim at a concrete Codeforces record. -/
theorem spec_C8_witness :
    ∃ r ∈ [cfRoundRaw], r.phase = "BEFORE" ∧
      (formatCFContest cfRoundRaw).startTimeMs = r.startTimeSeconds * 1000 ∧
      (formatCFContest cfRoundRaw).endTimeMs
        = r.startTimeSeconds * 1000 + r.durationSeconds * 1000 ∧
      ((formatCFContest cfRoundRaw).startTimeMs
          < (formatCFContest cfRoundRaw).endTimeMs ↔ 0 < r.durationSeconds) :=
  spec_C8.1 [cfRoundRaw] (formatCFContest cfRoundRaw) (by decide)

/-- C4 (witness): a first-attempt timeout leads to a second attempt. -/
theorem spec_C4_witness :
    2 ≤ (attemptWithResourceId (fun _ => AttemptResult.errTimeout)).2 :=
  (spec_C4 (fun _ => AttemptResult.errTimeout)).2.2.2.1 rfl
